import Mathlib

set_option maxHeartbeats 1000000

/-!
Verification of the event-processing core of `src/api/app.py` (Chatbotpy).

The development shallowly embeds the Python source:

* `format_links` (lines 101-113) over explicit character lists, with Python's
  `str.find` and slice semantics, as a fuel-indexed loop (`formatLinksFuel`);
* `wait_for_run_completion` (lines 72-85) over an oracle list of successive
  poll statuses (`waitForRunCompletion`);
* `get_last_message` / `send_gpt_response` (lines 115-152) with a Slack-side
  oracle recording which outbound calls happen (`sendGptResponse`);
* the `/slack` route handler (lines 154-219) with backend oracles and an
  event trace (`slackHandler`);
* a two-thread interleaving model of the handler's dedup check and locked
  claim-and-run block (`concRun`), for the concurrency claim.
-/

/-- Python `str.find(ch)` over an explicit character list: index of the first
occurrence of `ch`, or `none` when absent (Python returns `-1`). -/
def findChar (ch : Char) : List Char → Option Nat
  | [] => none
  | x :: xs => if x = ch then some 0 else (findChar ch xs).map (· + 1)

/-- Python `str.find(ch, i)`: index of the first occurrence of `ch` at an
index `≥ i`, or `none`. -/
def findCharFrom (ch : Char) (t : List Char) (i : Nat) : Option Nat :=
  (findChar ch (t.drop i)).map (· + i)

/-- Python slice `t[a:b]` for nonnegative bounds (`b` clamped to the length,
empty when `a ≥ b`). -/
def pySlice (t : List Char) (a b : Nat) : List Char :=
  (t.take b).drop a

/-- One iteration of the `while True` body of `format_links` (src/api/app.py
lines 104-112).  `none` models the `break`: the loop exits and the current
text is returned.  The Python quirks are kept: when `find(']', start)`
returns `-1` the label slice is `t[start+1:-1]`, i.e. up to `len - 1`, and
when `find('(', start)` returns `-1` the url slice starts at `-1 + 1 = 0`. -/
def formatStep (t : List Char) : Option (List Char) :=
  match findChar '[' t with
  | none => none
  | some s =>
    match findCharFrom ')' t s with
    | none => none
    | some e =>
      let jEnd := match findCharFrom ']' t s with
        | some j => j
        | none => t.length - 1
      let linkText := pySlice t (s + 1) jEnd
      let pStart := match findCharFrom '(' t s with
        | some p => p + 1
        | none => 0
      let url := pySlice t pStart e
      some (t.take s ++ ('<' :: (url ++ '|' :: (linkText ++ ['>']))) ++ t.drop (e + 1))

/-- The `format_links` loop with explicit fuel: `none` means the loop has not
exited within `n` iterations. -/
def formatLinksFuel : Nat → List Char → Option (List Char)
  | 0, _ => none
  | n + 1, t =>
    match formatStep t with
    | none => some t
    | some t' => formatLinksFuel n t'

/-- Proposition: `format_links` applied to `t` terminates and returns `r`. -/
def FormatLinksResult (t r : List Char) : Prop :=
  ∃ n, formatLinksFuel n t = some r

theorem findChar_eq_none_of_not_mem {ch : Char} {t : List Char} (h : ch ∉ t) :
    findChar ch t = none := by
  induction t with
  | nil => rfl
  | cons x xs ih =>
    simp only [List.mem_cons, not_or] at h
    simp [findChar, Ne.symm h.1, ih h.2]

theorem findChar_cons_self (ch : Char) (xs : List Char) :
    findChar ch (ch :: xs) = some 0 := by
  simp [findChar]

theorem findChar_cons_ne {ch x : Char} (h : x ≠ ch) (xs : List Char) :
    findChar ch (x :: xs) = (findChar ch xs).map (· + 1) := by
  simp [findChar, h]

theorem findChar_append_of_not_mem {ch : Char} {p : List Char} (h : ch ∉ p)
    (q : List Char) :
    findChar ch (p ++ q) = (findChar ch q).map (· + p.length) := by
  induction p with
  | nil => simp
  | cons x xs ih =>
    simp only [List.mem_cons, not_or] at h
    rw [List.cons_append, findChar_cons_ne (Ne.symm h.1), ih h.2]
    cases findChar ch q with
    | none => rfl
    | some a =>
      simp only [Option.map_some', List.length_cons, Option.some.injEq]
      omega

theorem take_len_app (p q : List Char) : (p ++ q).take p.length = p := by
  simp

theorem drop_len_app (p q : List Char) : (p ++ q).drop p.length = q := by
  simp

theorem pySlice_mid (p q r : List Char) :
    pySlice (p ++ (q ++ r)) p.length (p.length + q.length) = q := by
  unfold pySlice
  rw [show p ++ (q ++ r) = (p ++ q) ++ r by simp,
      show p.length + q.length = (p ++ q).length by simp,
      take_len_app, drop_len_app]

/-- Any value returned by the `format_links` loop is a fixpoint of the loop
body: the loop only returns after `find` fails. -/
theorem formatLinksFuel_fix {n : Nat} {t r : List Char}
    (h : formatLinksFuel n t = some r) : formatStep r = none := by
  induction n generalizing t with
  | zero => simp [formatLinksFuel] at h
  | succ n ih =>
    unfold formatLinksFuel at h
    cases hs : formatStep t with
    | none => rw [hs] at h; cases h; exact hs
    | some t' => rw [hs] at h; exact ih h

theorem formatStep_none_result {t : List Char} (h : formatStep t = none) :
    FormatLinksResult t t :=
  ⟨1, by simp [formatLinksFuel, h]⟩

/-- One unfolding of the loop when the body rewrites the text. -/
theorem formatLinksFuel_succ_of_step {n : Nat} {t t' : List Char}
    (h : formatStep t = some t') :
    formatLinksFuel (n + 1) t = formatLinksFuel n t' := by
  simp [formatLinksFuel, h]

/-- Text with no `[` is left untouched: the loop exits at once. -/
theorem formatStep_no_bracket {t : List Char} (h : '[' ∉ t) :
    formatStep t = none := by
  simp [formatStep, findChar_eq_none_of_not_mem h]

theorem pySlice_eq (p q r : List Char) {a b : Nat} (ha : a = p.length)
    (hb : b = p.length + q.length) : pySlice (p ++ (q ++ r)) a b = q := by
  subst ha; subst hb; exact pySlice_mid p q r

theorem take_eq_of_len (p q : List Char) {a : Nat} (ha : a = p.length) :
    (p ++ q).take a = p := by
  subst ha; exact take_len_app p q

theorem drop_eq_of_len (p q : List Char) {a : Nat} (ha : a = p.length) :
    (p ++ q).drop a = q := by
  subst ha; exact drop_len_app p q

/-- Behavior of one `format_links` iteration on a well-formed leading link
`[l](u)` after a bracket-free prefix `c`: the link is rewritten to `<u|l>`
exactly as on src/api/app.py lines 109-112. -/
theorem formatStep_wf_link (c l u z : List Char) (hc : '[' ∉ c) (hl1 : ']' ∉ l)
    (hl2 : '(' ∉ l) (hl3 : ')' ∉ l) (hu : ')' ∉ u) :
    formatStep (c ++ ('[' :: (l ++ (']' :: ('(' :: (u ++ (')' :: z))))))) =
      some (c ++ ('<' :: (u ++ '|' :: (l ++ ['>']))) ++ z) := by
  have hdrop : (c ++ ('[' :: (l ++ (']' :: ('(' :: (u ++ (')' :: z))))))).drop c.length =
      '[' :: (l ++ (']' :: ('(' :: (u ++ (')' :: z))))) := drop_len_app c _
  have h1 : findChar '[' (c ++ ('[' :: (l ++ (']' :: ('(' :: (u ++ (')' :: z))))))) =
      some c.length := by
    rw [findChar_append_of_not_mem hc, findChar_cons_self]
    simp
  have hXe : findChar ')' ('[' :: (l ++ (']' :: ('(' :: (u ++ (')' :: z)))))) =
      some (l.length + u.length + 3) := by
    rw [findChar_cons_ne (by decide), findChar_append_of_not_mem hl3,
        findChar_cons_ne (by decide), findChar_cons_ne (by decide),
        findChar_append_of_not_mem hu, findChar_cons_self]
    simp only [Option.map_some', Option.some.injEq]
    omega
  have hXj : findChar ']' ('[' :: (l ++ (']' :: ('(' :: (u ++ (')' :: z)))))) =
      some (l.length + 1) := by
    rw [findChar_cons_ne (by decide), findChar_append_of_not_mem hl1,
        findChar_cons_self]
    simp only [Option.map_some', Option.some.injEq]
    omega
  have hXp : findChar '(' ('[' :: (l ++ (']' :: ('(' :: (u ++ (')' :: z)))))) =
      some (l.length + 2) := by
    rw [findChar_cons_ne (by decide), findChar_append_of_not_mem hl2,
        findChar_cons_ne (by decide), findChar_cons_self]
    simp only [Option.map_some', Option.some.injEq]
    omega
  have he : findCharFrom ')' (c ++ ('[' :: (l ++ (']' :: ('(' :: (u ++ (')' :: z)))))))
      c.length = some (l.length + u.length + 3 + c.length) := by
    simp only [findCharFrom]
    rw [hdrop, hXe]
    rfl
  have hj : findCharFrom ']' (c ++ ('[' :: (l ++ (']' :: ('(' :: (u ++ (')' :: z)))))))
      c.length = some (l.length + 1 + c.length) := by
    simp only [findCharFrom]
    rw [hdrop, hXj]
    rfl
  have hp : findCharFrom '(' (c ++ ('[' :: (l ++ (']' :: ('(' :: (u ++ (')' :: z)))))))
      c.length = some (l.length + 2 + c.length) := by
    simp only [findCharFrom]
    rw [hdrop, hXp]
    rfl
  have hTake : (c ++ ('[' :: (l ++ (']' :: ('(' :: (u ++ (')' :: z))))))).take c.length =
      c := take_eq_of_len c _ rfl
  have hLink : pySlice (c ++ ('[' :: (l ++ (']' :: ('(' :: (u ++ (')' :: z)))))))
      (c.length + 1) (l.length + 1 + c.length) = l := by
    rw [show c ++ ('[' :: (l ++ (']' :: ('(' :: (u ++ (')' :: z)))))) =
        (c ++ ['[']) ++ (l ++ (']' :: ('(' :: (u ++ (')' :: z))))) from by simp]
    exact pySlice_eq _ _ _ (by simp) (by simp; omega)
  have hUrl : pySlice (c ++ ('[' :: (l ++ (']' :: ('(' :: (u ++ (')' :: z)))))))
      (l.length + 2 + c.length + 1) (l.length + u.length + 3 + c.length) = u := by
    rw [show c ++ ('[' :: (l ++ (']' :: ('(' :: (u ++ (')' :: z)))))) =
        (c ++ ('[' :: (l ++ [']', '(']))) ++ (u ++ (')' :: z)) from by simp]
    exact pySlice_eq _ _ _ (by simp; omega) (by simp; omega)
  have hDrop : (c ++ ('[' :: (l ++ (']' :: ('(' :: (u ++ (')' :: z))))))).drop
      (l.length + u.length + 3 + c.length + 1) = z := by
    rw [show c ++ ('[' :: (l ++ (']' :: ('(' :: (u ++ (')' :: z)))))) =
        (c ++ ('[' :: (l ++ (']' :: ('(' :: (u ++ [')'])))))) ++ z from by simp]
    exact drop_eq_of_len _ _ (by simp; omega)
  simp only [formatStep, h1, he, hj, hp]
  rw [hTake, hLink, hUrl, hDrop]

/-- Label text of a well-formed markdown link: contains none of the four
delimiter characters the scan of `format_links` keys on. -/
def labelOk (l : List Char) : Prop :=
  '[' ∉ l ∧ ']' ∉ l ∧ '(' ∉ l ∧ ')' ∉ l

/-- Url text of a well-formed markdown link: no `[` (so the rewritten text has
no bracket left) and no `)` (so the first `)` after the `[` closes the link). -/
def urlOk (u : List Char) : Prop :=
  '[' ∉ u ∧ ')' ∉ u

/-- Text whose bracketed links are all well-formed `[label](url)` patterns:
bracket-free plain segments alternating with well-formed links. -/
inductive WFLinkText : List Char → Prop
  | plain (p : List Char) (hp : '[' ∉ p) : WFLinkText p
  | link (p l u t : List Char) (hp : '[' ∉ p) (hl : labelOk l) (hu : urlOk u)
      (ht : WFLinkText t) :
      WFLinkText (p ++ ('[' :: (l ++ (']' :: ('(' :: (u ++ (')' :: t)))))))

/-- On well-formed text prefixed by any bracket-free string, the
`format_links` loop terminates; the prefix passes through unchanged. -/
theorem wf_formatLinks {t : List Char} (h : WFLinkText t) :
    ∀ c : List Char, '[' ∉ c → ∃ r, FormatLinksResult (c ++ t) (c ++ r) := by
  induction h with
  | plain p hp =>
    intro c hc
    refine ⟨p, formatStep_none_result (formatStep_no_bracket ?_)⟩
    simp only [List.mem_append, not_or]
    exact ⟨hc, hp⟩
  | link p l u t hp hl hu ht ih =>
    intro c hc
    have hcp : '[' ∉ c ++ p := by
      simp only [List.mem_append, not_or]
      exact ⟨hc, hp⟩
    have hstep := formatStep_wf_link (c ++ p) l u t hcp hl.2.1 hl.2.2.1 hl.2.2.2 hu.2
    obtain ⟨r, n, hr⟩ := ih (c ++ (p ++ ('<' :: (u ++ '|' :: (l ++ ['>']))))) (by
      intro hmem
      rcases List.mem_append.1 hmem with h | h
      · exact hc h
      rcases List.mem_append.1 h with h | h
      · exact hp h
      rcases List.mem_cons.1 h with h | h
      · exact absurd h (by decide)
      rcases List.mem_append.1 h with h | h
      · exact hu.1 h
      rcases List.mem_cons.1 h with h | h
      · exact absurd h (by decide)
      rcases List.mem_append.1 h with h | h
      · exact hl.1 h
      rcases List.mem_cons.1 h with h | h
      · exact absurd h (by decide)
      exact absurd h (by simp))
    refine ⟨p ++ (('<' :: (u ++ '|' :: (l ++ ['>']))) ++ r), n + 1, ?_⟩
    rw [show c ++ (p ++ ('[' :: (l ++ (']' :: ('(' :: (u ++ (')' :: t))))))) =
        (c ++ p) ++ ('[' :: (l ++ (']' :: ('(' :: (u ++ (')' :: t)))))) from by simp]
    rw [formatLinksFuel_succ_of_step hstep]
    have heq1 : (c ++ p) ++ ('<' :: (u ++ '|' :: (l ++ ['>']))) ++ t =
        (c ++ (p ++ ('<' :: (u ++ '|' :: (l ++ ['>']))))) ++ t := by simp
    have heq2 : (c ++ (p ++ ('<' :: (u ++ '|' :: (l ++ ['>']))))) ++ r =
        c ++ (p ++ (('<' :: (u ++ '|' :: (l ++ ['>']))) ++ r)) := by simp
    rw [heq1, hr, heq2]

/-- Concatenation of `m` copies of a fixed character chunk. -/
def repChunk (seg : List Char) (m : Nat) : List Char :=
  (List.replicate m seg).flatten

theorem repChunk_succ (seg : List Char) (m : Nat) :
    repChunk seg (m + 1) = seg ++ repChunk seg m := by
  simp [repChunk, List.replicate_succ]

theorem repChunk_add (seg : List Char) (m n : Nat) :
    repChunk seg (m + n) = repChunk seg m ++ repChunk seg n := by
  induction m with
  | zero => simp [repChunk]
  | succ m ih =>
    rw [Nat.succ_add, repChunk_succ, repChunk_succ, ih, List.append_assoc]

theorem not_mem_repChunk {ch : Char} {seg : List Char} (h : ch ∉ seg) (m : Nat) :
    ch ∉ repChunk seg m := by
  induction m with
  | zero => simp [repChunk]
  | succ m ih =>
    rw [repChunk_succ]
    simp only [List.mem_append, not_or]
    exact ⟨h, ih⟩

theorem repChunk_len (seg : List Char) (m : Nat) :
    (repChunk seg m).length = m * seg.length := by
  induction m with
  | zero => simp [repChunk]
  | succ m ih => rw [repChunk_succ]; simp [ih]; ring

/-- The `m`-th text of the diverging run of `format_links` started on the
malformed input `"[a)b]"`. -/
def badText (m : Nat) : List Char :=
  List.replicate m '<' ++
    ('[' :: (repChunk ['a', '|'] m ++
      ('a' :: (')' :: (repChunk ['b', '>'] m ++ ('b' :: (']' :: [])))))))

/-- One `format_links` iteration on `badText m` yields `badText (2m+1)`: the
url slice `t[0:end]` (Python `find('(', start) = -1`, so the slice starts at
`-1 + 1 = 0`) copies the whole prefix including the `[`, so the bracket
pattern reappears and the text grows. -/
theorem formatStep_badText (m : Nat) :
    formatStep (badText m) = some (badText (2 * m + 1)) := by
  have hlt : '[' ∉ List.replicate m '<' := by simp [List.mem_replicate]
  have hdrop : (badText m).drop m =
      '[' :: (repChunk ['a', '|'] m ++
        ('a' :: (')' :: (repChunk ['b', '>'] m ++ ('b' :: (']' :: [])))))) := by
    rw [badText]
    exact drop_eq_of_len _ _ (by simp)
  have h1 : findChar '[' (badText m) = some m := by
    rw [badText, findChar_append_of_not_mem hlt, findChar_cons_self]
    simp
  have hXe : findChar ')'
      ('[' :: (repChunk ['a', '|'] m ++
        ('a' :: (')' :: (repChunk ['b', '>'] m ++ ('b' :: (']' :: []))))))) =
      some (2 * m + 2) := by
    rw [findChar_cons_ne (by decide),
        findChar_append_of_not_mem (not_mem_repChunk (by decide) m),
        findChar_cons_ne (by decide), findChar_cons_self]
    simp only [Option.map_some', Option.some.injEq, repChunk_len, List.length_cons, List.length_nil]
    omega
  have hXj : findChar ']'
      ('[' :: (repChunk ['a', '|'] m ++
        ('a' :: (')' :: (repChunk ['b', '>'] m ++ ('b' :: (']' :: []))))))) =
      some (4 * m + 4) := by
    rw [findChar_cons_ne (by decide),
        findChar_append_of_not_mem (not_mem_repChunk (by decide) m),
        findChar_cons_ne (by decide), findChar_cons_ne (by decide),
        findChar_append_of_not_mem (not_mem_repChunk (by decide) m),
        findChar_cons_ne (by decide), findChar_cons_self]
    simp only [Option.map_some', Option.some.injEq, repChunk_len, List.length_cons, List.length_nil]
    omega
  have hXp : findChar '('
      ('[' :: (repChunk ['a', '|'] m ++
        ('a' :: (')' :: (repChunk ['b', '>'] m ++ ('b' :: (']' :: []))))))) =
      none := by
    refine findChar_eq_none_of_not_mem ?_
    intro hmem
    rcases List.mem_cons.1 hmem with h | h
    · exact absurd h (by decide)
    rcases List.mem_append.1 h with h | h
    · exact not_mem_repChunk (by decide) m h
    rcases List.mem_cons.1 h with h | h
    · exact absurd h (by decide)
    rcases List.mem_cons.1 h with h | h
    · exact absurd h (by decide)
    rcases List.mem_append.1 h with h | h
    · exact not_mem_repChunk (by decide) m h
    rcases List.mem_cons.1 h with h | h
    · exact absurd h (by decide)
    rcases List.mem_cons.1 h with h | h
    · exact absurd h (by decide)
    exact absurd h (by simp)
  have he : findCharFrom ')' (badText m) m = some (2 * m + 2 + m) := by
    simp only [findCharFrom]
    rw [hdrop, hXe]
    rfl
  have hj : findCharFrom ']' (badText m) m = some (4 * m + 4 + m) := by
    simp only [findCharFrom]
    rw [hdrop, hXj]
    rfl
  have hpn : findCharFrom '(' (badText m) m = none := by
    simp only [findCharFrom]
    rw [hdrop, hXp]
    rfl
  have hTake : (badText m).take m = List.replicate m '<' := by
    rw [badText]
    exact take_eq_of_len _ _ (by simp)
  have hUrl : pySlice (badText m) 0 (2 * m + 2 + m) =
      List.replicate m '<' ++ ('[' :: (repChunk ['a', '|'] m ++ ['a'])) := by
    unfold pySlice
    rw [List.drop_zero, badText,
        show List.replicate m '<' ++
          ('[' :: (repChunk ['a', '|'] m ++
            ('a' :: (')' :: (repChunk ['b', '>'] m ++ ('b' :: (']' :: []))))))) =
          (List.replicate m '<' ++ ('[' :: (repChunk ['a', '|'] m ++ ['a']))) ++
            (')' :: (repChunk ['b', '>'] m ++ ('b' :: (']' :: [])))) from by simp]
    exact take_eq_of_len _ _ (by simp [repChunk_len, List.length_cons, List.length_nil]; omega)
  have hLink : pySlice (badText m) (m + 1) (4 * m + 4 + m) =
      repChunk ['a', '|'] m ++ ('a' :: (')' :: (repChunk ['b', '>'] m ++ ['b']))) := by
    rw [badText,
        show List.replicate m '<' ++
          ('[' :: (repChunk ['a', '|'] m ++
            ('a' :: (')' :: (repChunk ['b', '>'] m ++ ('b' :: (']' :: []))))))) =
          (List.replicate m '<' ++ ['[']) ++
            ((repChunk ['a', '|'] m ++
              ('a' :: (')' :: (repChunk ['b', '>'] m ++ ['b'])))) ++ (']' :: [])) from by
          simp]
    exact pySlice_eq _ _ _ (by simp) (by simp [repChunk_len, List.length_cons, List.length_nil]; omega)
  have hDrop : (badText m).drop (2 * m + 2 + m + 1) =
      repChunk ['b', '>'] m ++ ('b' :: (']' :: [])) := by
    rw [badText,
        show List.replicate m '<' ++
          ('[' :: (repChunk ['a', '|'] m ++
            ('a' :: (')' :: (repChunk ['b', '>'] m ++ ('b' :: (']' :: []))))))) =
          (List.replicate m '<' ++ ('[' :: (repChunk ['a', '|'] m ++ ('a' :: [')'])))) ++
            (repChunk ['b', '>'] m ++ ('b' :: (']' :: []))) from by simp]
    exact drop_eq_of_len _ _ (by simp [repChunk_len, List.length_cons, List.length_nil]; omega)
  have hrep : List.replicate (2 * m + 1) '<' =
      List.replicate m '<' ++ ('<' :: List.replicate m '<') := by
    rw [show 2 * m + 1 = m + (m + 1) from by omega, List.replicate_add,
        List.replicate_succ]
  have hA : repChunk ['a', '|'] (2 * m + 1) =
      repChunk ['a', '|'] m ++ (('a' :: ('|' :: [])) ++ repChunk ['a', '|'] m) := by
    rw [show 2 * m + 1 = m + (1 + m) from by omega, repChunk_add, repChunk_add]
    simp [repChunk]
  have hB : repChunk ['b', '>'] (2 * m + 1) =
      repChunk ['b', '>'] m ++ (('b' :: ('>' :: [])) ++ repChunk ['b', '>'] m) := by
    rw [show 2 * m + 1 = m + (1 + m) from by omega, repChunk_add, repChunk_add]
    simp [repChunk]
  simp only [formatStep, h1, he, hj, hpn]
  rw [hTake, hUrl, hLink, hDrop]
  rw [show badText (2 * m + 1) = List.replicate (2 * m + 1) '<' ++
      ('[' :: (repChunk ['a', '|'] (2 * m + 1) ++
        ('a' :: (')' :: (repChunk ['b', '>'] (2 * m + 1) ++
          ('b' :: (']' :: []))))))) from rfl]
  rw [hrep, hA, hB]
  simp

/-- Started on any `badText m`, the `format_links` loop never exits. -/
theorem badText_no_result (n : Nat) : ∀ m : Nat, formatLinksFuel n (badText m) = none := by
  induction n with
  | zero => intro m; rfl
  | succ n ih =>
    intro m
    rw [formatLinksFuel_succ_of_step (formatStep_badText m)]
    exact ih (2 * m + 1)

theorem badText_zero : badText 0 = "[a)b]".toList := by decide

/-- The three statuses the polling loop of src/api/app.py line 81 stops on. -/
def terminalStatuses : List String := ["completed", "failed", "incomplete"]

/-- Model of `wait_for_run_completion` (lines 72-85) driven by an oracle list of
successive poll statuses: the status the loop stops on, together with the
number of status polls issued.  `none` means the loop is still waiting after
consuming the entire oracle list (the real loop has no timeout and would keep
polling). -/
def waitForRunCompletion : List String → Option (String × Nat)
  | [] => none
  | s :: rest =>
    if s ∈ terminalStatuses then some (s, 1)
    else (waitForRunCompletion rest).map (fun p => (p.1, p.2 + 1))

/-- Stated behavior per the spec wording for claim C5 ("any other status not
in {queued,in_progress} is treated as terminal by the polling loop"): stop at
the first status outside {queued, in_progress}.  Kept separate from the
source-derived `waitForRunCompletion` so the two can be compared. -/
def claimedWaitNonActive : List String → Option (String × Nat)
  | [] => none
  | s :: rest =>
    if s ∉ ["queued", "in_progress"] then some (s, 1)
    else (claimedWaitNonActive rest).map (fun p => (p.1, p.2 + 1))

/-- Result of the Slack `conversations_replies` lookup in `get_last_message`
(lines 115-128): either the thread's message texts, or a `SlackApiError`. -/
inductive LookupResult
  | ok (msgs : List String)
  | apiError
deriving DecidableEq

/-- Model of `get_last_message` (lines 115-128): the text of the thread's last message;
`none` when the thread has no messages or the lookup raised `SlackApiError`
(the except branch logs and falls through to `return None`). -/
def getLastMessage : LookupResult → Option String
  | .ok msgs => msgs.getLast?
  | .apiError => none

/-- Slack-side oracle for one request: outcome of the last-message lookup, of
the reply `chat_postMessage`, and of the admin-alert `chat_postMessage`;
`adminErrMsg` is `str(e)` of the exception when the admin alert itself
raises. -/
structure SlackEnv where
  lookup : LookupResult
  postOk : Bool
  adminPostOk : Bool
  adminErrMsg : String
deriving DecidableEq

/-- One observable outbound call of the handler, in order of occurrence. -/
inductive Event
  | save | create | poll | fetch | lookup | post | adminPost
deriving DecidableEq

/-- How `send_gpt_response` (lines 130-152) finishes. -/
inductive SendOutcome
  | sent
  | suppressed
  | failedAlerted
  | raised (msg : String)
deriving DecidableEq

/-- Model of `send_gpt_response` (lines 130-152): format the text, fetch the thread's
last message, post only when different; on `SlackApiError` from the post,
post a second admin-tagged message and return normally (`failedAlerted`); if
that second post raises too, the exception propagates (`raised`).  Result
`none` means the call never returns because `format_links` diverges on
`text`. -/
def sendGptResponse (se : SlackEnv) (fuel : Nat) (text : String) :
    Option SendOutcome × List Event :=
  match formatLinksFuel fuel text.toList with
  | none => (none, [])
  | some fm =>
    let formatted := String.mk fm
    if getLastMessage se.lookup ≠ some formatted then
      if se.postOk then (some .sent, [.lookup, .post])
      else if se.adminPostOk then (some .failedAlerted, [.lookup, .post, .adminPost])
      else (some (.raised se.adminErrMsg), [.lookup, .post, .adminPost])
    else (some .suppressed, [.lookup])

/-- Response of the `create_thread` POST (lines 59-65). -/
structure CreateResp where
  statusCode : Nat
  body : String
  threadId? : Option String
deriving DecidableEq

/-- The `'text'` entry of a content item (`content[0]['text']`); `value?` is
its `'value'` key, whose absence raises `KeyError` on line 204. -/
structure TextObj where
  value? : Option String
deriving DecidableEq

/-- One element of `messages['data'][0]['content']`. -/
structure ContentItem where
  text? : Option TextObj
deriving DecidableEq

/-- One element of `messages['data']`. -/
structure MsgObj where
  content? : Option (List ContentItem)
deriving DecidableEq

/-- Response of the messages GET (lines 89-94) with its parsed JSON body. -/
structure MessagesResp where
  statusCode : Nat
  body : String
  data? : Option (List MsgObj)
deriving DecidableEq

/-- Backend oracle for one request: the create response, the successive
statuses returned by the run polls, and the messages response. -/
structure Backend where
  createResp : CreateResp
  statuses : List String
  messagesResp : MessagesResp
deriving DecidableEq

/-- Model of `create_thread` (lines 49-70): raises (as `Except.error`, carrying the
`str` of the exception) on a non-200 status; otherwise returns
`response.json().get('thread_id')`. -/
def createThread (r : CreateResp) : Except String (Option String) :=
  if r.statusCode ≠ 200 then
    .error ("Failed to create thread: " ++ toString r.statusCode ++ ", " ++ r.body)
  else .ok r.threadId?

/-- Model of `get_thread_messages` (lines 87-99): raises on a non-200 status. -/
def getThreadMessages (r : MessagesResp) : Except String MessagesResp :=
  if r.statusCode ≠ 200 then
    .error ("Failed to get thread messages: " ++ toString r.statusCode ++ ", " ++ r.body)
  else .ok r

/-- Lines 200-208: extract `messages['data'][0]['content'][0]['text']['value']`
after the structural checks; the `error` string is `str(e)` of the exception
raised (`"Unexpected API response structure"`, or `KeyError` `'value'`). -/
def extractLastMessage (r : MessagesResp) : Except String String :=
  match r.data? with
  | some (m :: _) =>
    match m.content? with
    | some (c :: _) =>
      match c.text? with
      | some tobj =>
        match tobj.value? with
        | some v => .ok v
        | none => .error "'value'"
      | none => .error "Unexpected API response structure"
    | some [] => .error "Unexpected API response structure"
    | none => .error "Unexpected API response structure"
  | some [] => .error "Unexpected API response structure"
  | none => .error "Unexpected API response structure"

/-- JSON responses of the `/slack` route handler; `unhandled` is an exception
escaping the handler (only possible when the send inside the `except` block
raises again). -/
inductive HandlerResponse
  | challenge (c : Option String)
  | ok
  | okAlready
  | errorMsg (m : String)
  | unhandled
deriving DecidableEq

/-- The fields of one inbound webhook call the handler reads (lines 156-168):
`data.get('type')`, `data.get('challenge')`, `data.get('event_id')`,
`event.get('text','')`, `event.get('channel')`, `event.get('ts')` and the
`X-Slack-Retry-Num` header. -/
structure SlackRequest where
  type? : Option String
  challenge? : Option String
  eventId? : Option String
  text : String
  channel? : Option String
  ts? : Option String
  retry? : Option String
deriving DecidableEq

/-- Python truthiness of an optional header string (`if retry_num:`). -/
def pyTruthy : Option String → Bool
  | none => false
  | some s => s ≠ ""

/-- Effect of `processed_events.add(event_id)` on a set modelled as a duplicate-free
list. -/
def insertEvent (e : Option String) (s : List (Option String)) :
    List (Option String) :=
  if e ∈ s then s else e :: s

/-- The `except Exception` branch (lines 216-219): build
`f"Error: {str(e)}"`, send it in-thread, return the error response; if this
send itself raises, the exception escapes the handler. -/
def exceptPath (se : SlackEnv) (fuel : Nat) (msg : String) :
    Option HandlerResponse × List Event :=
  match sendGptResponse se fuel ("Error: " ++ msg) with
  | (none, tr) => (none, tr)
  | (some (.raised _), tr) => (some .unhandled, tr)
  | (some _, tr) => (some (.errorMsg ("Error: " ++ msg)), tr)

/-- The `/slack` route handler (lines 154-219): handshake echo, retry
acknowledgment, dedup check, claim (add + save), then create / poll / fetch /
notify with the catch-all `except`.  Returns the response (`none` when the
request never returns: unbounded polling or a diverging `format_links`), the
updated processed-events store, and the ordered trace of outbound calls. -/
def slackHandler (req : SlackRequest) (be : Backend) (se : SlackEnv) (fuel : Nat)
    (store : List (Option String)) :
    Option HandlerResponse × List (Option String) × List Event :=
  if req.type? = some "url_verification" then
    (some (.challenge req.challenge?), store, [])
  else if pyTruthy req.retry? then (some .ok, store, [])
  else if req.eventId? ∈ store then (some .okAlready, store, [])
  else
    let store' := insertEvent req.eventId? store
    match createThread be.createResp with
    | .error msg =>
      let r := exceptPath se fuel msg
      (r.1, store', [.save, .create] ++ r.2)
    | .ok _ =>
      match waitForRunCompletion be.statuses with
      | none =>
        (none, store', [.save, .create] ++ List.replicate be.statuses.length .poll)
      | some (status, n) =>
        if status = "completed" then
          match getThreadMessages be.messagesResp with
          | .error msg =>
            let r := exceptPath se fuel msg
            (r.1, store', [.save, .create] ++ List.replicate n .poll ++ [.fetch] ++ r.2)
          | .ok mr =>
            match extractLastMessage mr with
            | .error msg =>
              let r := exceptPath se fuel msg
              (r.1, store', [.save, .create] ++ List.replicate n .poll ++ [.fetch] ++ r.2)
            | .ok lastText =>
              match sendGptResponse se fuel lastText with
              | (none, tr) =>
                (none, store', [.save, .create] ++ List.replicate n .poll ++ [.fetch] ++ tr)
              | (some (.raised m), tr) =>
                let r := exceptPath se fuel m
                (r.1, store',
                  [.save, .create] ++ List.replicate n .poll ++ [.fetch] ++ tr ++ r.2)
              | (some _, tr) =>
                (some .ok, store',
                  [.save, .create] ++ List.replicate n .poll ++ [.fetch] ++ tr)
        else
          match sendGptResponse se fuel ("Run failed with status: " ++ status) with
          | (none, tr) =>
            (none, store', [.save, .create] ++ List.replicate n .poll ++ tr)
          | (some (.raised m), tr) =>
            let r := exceptPath se fuel m
            (r.1, store', [.save, .create] ++ List.replicate n .poll ++ tr ++ r.2)
          | (some _, tr) =>
            (some (.errorMsg ("Run failed with status: " ++ status)), store',
              [.save, .create] ++ List.replicate n .poll ++ tr)

/-- Position of one request-handling thread in the handler's dedup protocol:
before the line-178 membership check, past the check (about to enter the
`with event_lock` block), or finished. -/
inductive ThreadPhase
  | beforeCheck | passedCheck | done
deriving DecidableEq

/-- Shared state of two concurrent deliveries of the same event id: the
processed-events store, how many times the run-creation step (step 5) has
executed, and each thread's position. -/
structure ConcState where
  store : List (Option String)
  runCreations : Nat
  t1 : ThreadPhase
  t2 : ThreadPhase
deriving DecidableEq

def phaseOf (s : ConcState) (i : Bool) : ThreadPhase :=
  if i then s.t2 else s.t1

def setPhase (s : ConcState) (i : Bool) (p : ThreadPhase) : ConcState :=
  if i then { s with t2 := p } else { s with t1 := p }

/-- One atomic action of thread `i` delivering event id `e`, following the
source's structure: the membership check of line 178 executes outside
`event_lock`, while lines 182-219 (add to the set, save, and the whole of
step 5 including `create_thread`) execute as one mutually-exclusive locked
block, modelled as a single atomic action. -/
def concStep (e : Option String) (s : ConcState) (i : Bool) : ConcState :=
  match phaseOf s i with
  | .beforeCheck =>
    if e ∈ s.store then setPhase s i .done else setPhase s i .passedCheck
  | .passedCheck =>
    setPhase
      { s with store := insertEvent e s.store, runCreations := s.runCreations + 1 }
      i .done
  | .done => s

/-- Run a schedule (the interleaving order of the two threads' atomic
actions). -/
def concRun (e : Option String) : List Bool → ConcState → ConcState
  | [], s => s
  | i :: rest, s => concRun e rest (concStep e s i)

/-- Initial state: empty store, no run created, both deliveries just
arrived. -/
def concInit : ConcState :=
  ⟨[], 0, .beforeCheck, .beforeCheck⟩

theorem insertEvent_mem_of_mem {e x : Option String} {s : List (Option String)}
    (h : e ∈ s) : e ∈ insertEvent x s := by
  unfold insertEvent
  split
  · exact h
  · exact List.mem_cons_of_mem _ h

theorem mem_insertEvent_self (e : Option String) (s : List (Option String)) :
    e ∈ insertEvent e s := by
  unfold insertEvent
  split
  · assumption
  · exact List.mem_cons_self _ _

/-- Lines 178-180: a request whose event id is already recorded is
acknowledged as already processed, with no outbound call and no change to the
store. -/
theorem handler_dedup_hit (req : SlackRequest) (be : Backend) (se : SlackEnv)
    (fuel : Nat) (store : List (Option String))
    (hty : req.type? ≠ some "url_verification")
    (hre : pyTruthy req.retry? = false)
    (hmem : req.eventId? ∈ store) :
    slackHandler req be se fuel store = (some .okAlready, store, []) := by
  unfold slackHandler
  rw [if_neg hty, if_neg (by simp [hre]), if_pos hmem]

/-- A fresh (unrecorded) event id is claimed: the returned store is the
insertion of the id, and `create_thread` is always reached. -/
theorem handler_fresh_store_and_create (req : SlackRequest) (be : Backend)
    (se : SlackEnv) (fuel : Nat) (store : List (Option String))
    (hty : req.type? ≠ some "url_verification")
    (hre : pyTruthy req.retry? = false)
    (hmem : req.eventId? ∉ store) :
    (slackHandler req be se fuel store).2.1 = insertEvent req.eventId? store ∧
    Event.create ∈ (slackHandler req be se fuel store).2.2 := by
  unfold slackHandler
  rw [if_neg hty, if_neg (by simp [hre]), if_neg hmem]
  constructor
  · repeat' split
    all_goals simp
  · repeat' split
    all_goals simp

/-- The store component returned by the handler is either the input store or
the input store with the event id inserted. -/
theorem handler_store_cases (req : SlackRequest) (be : Backend) (se : SlackEnv)
    (fuel : Nat) (store : List (Option String)) :
    (slackHandler req be se fuel store).2.1 = store ∨
    (slackHandler req be se fuel store).2.1 = insertEvent req.eventId? store := by
  unfold slackHandler
  repeat' split
  all_goals simp

theorem formatLinksFuel_mono {n m : Nat} {t r : List Char}
    (h : formatLinksFuel n t = some r) (hle : n ≤ m) :
    formatLinksFuel m t = some r := by
  induction n generalizing t m with
  | zero => simp [formatLinksFuel] at h
  | succ n ih =>
    match m, hle with
    | m + 1, hle =>
      unfold formatLinksFuel at h ⊢
      cases hs : formatStep t with
      | none => rw [hs] at h; exact h
      | some t' => rw [hs] at h; exact ih h (Nat.le_of_succ_le_succ hle)

theorem formatLinksResult_unique {t r₁ r₂ : List Char}
    (h₁ : FormatLinksResult t r₁) (h₂ : FormatLinksResult t r₂) : r₁ = r₂ := by
  obtain ⟨n, hn⟩ := h₁
  obtain ⟨m, hm⟩ := h₂
  have h1 := formatLinksFuel_mono hn (Nat.le_max_left n m)
  have h2 := formatLinksFuel_mono hm (Nat.le_max_right n m)
  rw [h1] at h2
  exact Option.some.inj h2

/-- A backend oracle for a fully successful run: create returns 200 with a
thread id, four polls return queued / in_progress / in_progress / completed,
and the messages response carries one message with extractable text. -/
def happyBackend : Backend :=
  ⟨⟨200, "", some "th_1"⟩, ["queued", "in_progress", "in_progress", "completed"],
    ⟨200, "", some [⟨some [⟨some ⟨some "Hello"⟩⟩]⟩]⟩⟩

/-- Slack oracle: empty thread, both posts succeed. -/
def happySlack : SlackEnv := ⟨.ok [], true, true, "platform_err"⟩

/-- Slack oracle: empty thread, the reply post raises `SlackApiError`, the
admin alert post succeeds. -/
def failSlack : SlackEnv := ⟨.ok [], false, true, "platform_err"⟩

/-- An ordinary event payload (no handshake, no retry header). -/
def sampleReq : SlackRequest :=
  ⟨none, none, some "Ev12345", "hi", some "C024", some "1700000000.000100", none⟩

/-- An event payload whose JSON body lacks the `event_id` field
(`data.get('event_id')` is `None`). -/
def sampleReqNoId : SlackRequest :=
  ⟨none, none, none, "hi", some "C024", some "1700000000.000100", none⟩

/-- C1: the claim is refuted by the code as written — the dedup-store check of
line 178 executes outside `event_lock` (line 182), so in the interleaving
where both concurrent deliveries of event id "E1" pass the membership check
before either acquires the lock, the run-creation step (step 5) executes
twice, not exactly once; the persisted set still ends with a single record of
the id.  The schedule below is exactly that interleaving: check by thread 1,
check by thread 2, locked claim-and-run by thread 1, locked claim-and-run by
thread 2. -/
theorem c1_unlocked_check_race :
    (concRun (some "E1") [false, true, false, true] concInit).runCreations = 2 ∧
    (concRun (some "E1") [false, true, false, true] concInit).store = [some "E1"] := by
  decide

/-- C2: for every event id already present in the dedup store, a non-handshake
non-retry delivery returns the "already processed" acknowledgment, performs no
outbound call at all (empty trace: no run creation, no polling, no message
fetch), and leaves the store unchanged. -/
theorem c2_redelivery_acknowledged_without_calls (req : SlackRequest)
    (be : Backend) (se : SlackEnv) (fuel : Nat) (store : List (Option String))
    (hty : req.type? ≠ some "url_verification")
    (hre : pyTruthy req.retry? = false)
    (hmem : req.eventId? ∈ store) :
    slackHandler req be se fuel store = (some .okAlready, store, []) :=
  handler_dedup_hit req be se fuel store hty hre hmem

/-- Witness for C2 at a concrete request and store. -/
theorem c2_witness :
    slackHandler sampleReq happyBackend happySlack 1 [some "Ev12345"] =
      (some .okAlready, [some "Ev12345"], []) :=
  c2_redelivery_acknowledged_without_calls sampleReq happyBackend happySlack 1
    [some "Ev12345"] (by decide) (by decide) (by decide)

/-- C3: the processed-events store only grows: every id present before a
request is still present afterwards, on every execution path of the handler
(handshake, retry, dedup hit, and all success or failure paths of step 5 —
the handler never removes an id). -/
theorem c3_processed_events_monotone (req : SlackRequest) (be : Backend)
    (se : SlackEnv) (fuel : Nat) (store : List (Option String)) :
    ∀ e ∈ store, e ∈ (slackHandler req be se fuel store).2.1 := by
  intro e he
  rcases handler_store_cases req be se fuel store with h | h
  · rw [h]; exact he
  · rw [h]; exact insertEvent_mem_of_mem he

/-- Witness for C3 at a concrete request and store. -/
theorem c3_witness :
    some "EvOld" ∈ (slackHandler sampleReq happyBackend happySlack 1
      [some "EvOld"]).2.1 :=
  c3_processed_events_monotone sampleReq happyBackend happySlack 1 [some "EvOld"]
    (some "EvOld") (by decide)

/-- C5 counterexample: on the status sequence ["cancelled", "completed"] the
code's polling loop does not stop at "cancelled" (a status outside
{queued, in_progress}) — it keeps polling and stops at "completed" on the
second poll, while the claimed rule stops at "cancelled" on the first poll. -/
theorem c5_counterexample :
    waitForRunCompletion ["cancelled", "completed"] = some ("completed", 2) ∧
    claimedWaitNonActive ["cancelled", "completed"] = some ("cancelled", 1) ∧
    waitForRunCompletion ["cancelled", "completed"] ≠
      claimedWaitNonActive ["cancelled", "completed"] := by
  decide

/-- C5 amended: the polling loop treats exactly the three statuses
completed, failed, incomplete as terminal — it returns the first such status,
after skipping every earlier status whatever it is (queued, in_progress, but
also cancelled or any other value). -/
theorem c5_terminal_exactly_three (pre : List String) (s : String)
    (post : List String) (hpre : ∀ x ∈ pre, x ∉ terminalStatuses)
    (hs : s ∈ terminalStatuses) :
    waitForRunCompletion (pre ++ s :: post) = some (s, pre.length + 1) := by
  induction pre with
  | nil => simp [waitForRunCompletion, hs]
  | cons x xs ih =>
    have hx : x ∉ terminalStatuses := hpre x (List.mem_cons_self x xs)
    rw [List.cons_append]
    unfold waitForRunCompletion
    rw [if_neg hx, ih (fun y hy => hpre y (List.mem_cons_of_mem x hy))]
    simp

/-- Witness for the amended C5: a non-terminal "cancelled" is skipped and the
loop stops at the later "failed". -/
theorem c5_witness :
    waitForRunCompletion (["queued", "cancelled"] ++ "failed" :: []) =
      some ("failed", 3) :=
  c5_terminal_exactly_three ["queued", "cancelled"] "failed" [] (by decide)
    (by decide)

/-- C6: on the poll-status sequence [queued, in_progress, in_progress,
completed] the handler issues exactly one message-fetch call, and that fetch
appears in the trace only after all four polls — in particular after the
third poll, with no fetch before the terminal status is observed. -/
theorem c6_one_fetch_after_terminal_poll :
    happyBackend.statuses = ["queued", "in_progress", "in_progress", "completed"] ∧
    (slackHandler sampleReq happyBackend happySlack 1 []).2.2 =
      [.save, .create, .poll, .poll, .poll, .poll, .fetch, .lookup, .post] ∧
    (slackHandler sampleReq happyBackend happySlack 1 []).2.2.count Event.fetch = 1 ∧
    ((slackHandler sampleReq happyBackend happySlack 1 []).2.2.takeWhile
      (fun ev => ev ≠ Event.fetch)).count Event.poll = 4 := by
  decide

/-- C4 counterexample: a concrete run in which the reply post to the platform
fails (`failSlack.postOk = false`).  The admin alert is sent (one `adminPost`
in the trace), but the original failure is not reported upward: the handler
answers plain success (`{"status": "ok"}`), refuting the claim that the
response reflects the send failure. -/
theorem c4_counterexample :
    failSlack.postOk = false ∧
    (slackHandler sampleReq happyBackend failSlack 1 []).1 =
      some HandlerResponse.ok ∧
    (slackHandler sampleReq happyBackend failSlack 1 []).2.2.count
      Event.adminPost = 1 := by
  decide

/-- C4 amended: on platform send failure the notifier posts the second
admin-tagged message, but then swallows the error — `send_gpt_response`
returns normally (outcome `failedAlerted`, no exception), so nothing is
reported upward and the handler's completed-path response stays success. -/
theorem c4_admin_alert_without_reraise (se : SlackEnv) (fuel : Nat)
    (text : String) (fm : List Char)
    (hfm : formatLinksFuel fuel text.toList = some fm)
    (hdiff : getLastMessage se.lookup ≠ some (String.mk fm))
    (hfail : se.postOk = false) (hadmin : se.adminPostOk = true) :
    sendGptResponse se fuel text =
      (some .failedAlerted, [.lookup, .post, .adminPost]) := by
  have hfm2 : formatLinksFuel fuel text.data = some fm := hfm
  simp [sendGptResponse, hfm2, hdiff, hfail, hadmin]

/-- Witness for the amended C4 at a concrete oracle and text. -/
theorem c4_witness :
    sendGptResponse failSlack 1 "hi" =
      (some .failedAlerted, [.lookup, .post, .adminPost]) :=
  c4_admin_alert_without_reraise failSlack 1 "hi" "hi".toList (by decide)
    (by decide) (by decide) (by decide)

/-- C7: with the formatted candidate equal to the thread's last message
byte-for-byte, no post call occurs and the outcome is suppression; with any
difference — including a failed lookup or an empty thread, both of which make
`get_last_message` return `None` — a post occurs. -/
theorem c7_suppress_or_send (se : SlackEnv) (fuel : Nat) (text : String)
    (fm : List Char) (hfm : formatLinksFuel fuel text.toList = some fm) :
    (getLastMessage se.lookup = some (String.mk fm) →
      (sendGptResponse se fuel text).1 = some .suppressed ∧
      Event.post ∉ (sendGptResponse se fuel text).2) ∧
    (getLastMessage se.lookup ≠ some (String.mk fm) →
      Event.post ∈ (sendGptResponse se fuel text).2) := by
  have hfm2 : formatLinksFuel fuel text.data = some fm := hfm
  constructor
  · intro heq
    constructor <;> simp [sendGptResponse, hfm2, heq]
  · intro hne
    cases hp : se.postOk <;> cases ha : se.adminPostOk <;>
      simp [sendGptResponse, hfm2, hne, hp, ha]

/-- Witness for C7: suppression when the last message matches, a post when
the thread is empty. -/
theorem c7_witness :
    (sendGptResponse ⟨.ok ["hi"], true, true, "e"⟩ 1 "hi").1 =
      some SendOutcome.suppressed ∧
    Event.post ∈ (sendGptResponse ⟨.ok [], true, true, "e"⟩ 1 "hi").2 :=
  ⟨((c7_suppress_or_send ⟨.ok ["hi"], true, true, "e"⟩ 1 "hi" "hi".toList
      (by decide)).1 (by decide)).1,
   (c7_suppress_or_send ⟨.ok [], true, true, "e"⟩ 1 "hi" "hi".toList
      (by decide)).2 (by decide)⟩

/-- C8: on well-formed input the `format_links` loop terminates, and its
(unique) result is a fixpoint: running `format_links` on the result returns
it unchanged, i.e. `format_links (format_links t) = format_links t`. -/
theorem c8_format_links_idempotent (t : List Char) (h : WFLinkText t) :
    ∃ r, FormatLinksResult t r ∧ FormatLinksResult r r ∧
      ∀ r', FormatLinksResult t r' → r' = r := by
  obtain ⟨r, hr⟩ := wf_formatLinks h [] (by simp)
  simp only [List.nil_append] at hr
  obtain ⟨n, hn⟩ := hr
  refine ⟨r, ⟨n, hn⟩, formatStep_none_result (formatLinksFuel_fix hn), ?_⟩
  intro r' hr'
  exact formatLinksResult_unique hr' ⟨n, hn⟩

/-- Witness for C8 on the spec's own example text
`"see [docs](http://x/y) now"`. -/
theorem c8_witness :
    ∃ r, FormatLinksResult ("see ".toList ++ ('[' :: ("docs".toList ++
        (']' :: ('(' :: ("http://x/y".toList ++ (')' :: " now".toList))))))) r ∧
      FormatLinksResult r r ∧
      ∀ r', FormatLinksResult ("see ".toList ++ ('[' :: ("docs".toList ++
        (']' :: ('(' :: ("http://x/y".toList ++ (')' :: " now".toList))))))) r' →
        r' = r :=
  c8_format_links_idempotent _
    (WFLinkText.link "see ".toList "docs".toList "http://x/y".toList " now".toList
      (by decide) ⟨by decide, by decide, by decide, by decide⟩
      ⟨by decide, by decide⟩ (WFLinkText.plain " now".toList (by decide)))

/-- C9 counterexample: `format_links` does not terminate on the malformed
input `"[a)b]"` — no amount of fuel makes the loop return.  Each iteration's
url slice (`find('(', start)` is `-1`, so the slice is `t[0:end]`) copies the
prefix including the `[` back into the text, which therefore grows forever
through the family `badText m`. -/
theorem c9_counterexample : ¬ ∃ r, FormatLinksResult "[a)b]".toList r := by
  rintro ⟨r, n, hr⟩
  have hz := badText_no_result n 0
  rw [badText_zero] at hz
  rw [hz] at hr
  exact Option.noConfusion hr

/-- C9 amended: `format_links` does return on bracket-free input (unchanged)
and on every well-formed input, but not on every string: the malformed
`"[a)b]"` of the counterexample makes it loop forever. -/
theorem c9_terminates_on_tame_inputs :
    (∀ t : List Char, '[' ∉ t → FormatLinksResult t t) ∧
    (∀ t : List Char, WFLinkText t → ∃ r, FormatLinksResult t r) := by
  constructor
  · intro t ht
    exact formatStep_none_result (formatStep_no_bracket ht)
  · intro t ht
    obtain ⟨r, hr⟩ := wf_formatLinks ht [] (by simp)
    simp only [List.nil_append] at hr
    exact ⟨r, hr⟩

/-- Witness for the amended C9 on a bracket-free text and a well-formed
link. -/
theorem c9_witness :
    FormatLinksResult "plain text".toList "plain text".toList ∧
    (∃ r, FormatLinksResult ("x ".toList ++ ('[' :: ("a".toList ++
      (']' :: ('(' :: ("b".toList ++ (')' :: "".toList))))))) r) :=
  ⟨c9_terminates_on_tame_inputs.1 "plain text".toList (by decide),
   c9_terminates_on_tame_inputs.2 _
     (WFLinkText.link "x ".toList "a".toList "b".toList "".toList (by decide)
       ⟨by decide, by decide, by decide, by decide⟩ ⟨by decide, by decide⟩
       (WFLinkText.plain "".toList (by decide)))⟩

/-- C10: a non-handshake, non-retry payload lacking `event_id` is deduplicated
under the key `None`: the first such payload is processed (the claim happens
and `create_thread` is reached) and `None` enters the store; any later payload
lacking `event_id` is then acknowledged as already processed with no outbound
call. -/
theorem c10_missing_event_id_dedups_on_none (req1 req2 : SlackRequest)
    (be1 be2 : Backend) (se1 se2 : SlackEnv) (f1 f2 : Nat)
    (store : List (Option String))
    (h1t : req1.type? ≠ some "url_verification")
    (h1r : pyTruthy req1.retry? = false) (h1e : req1.eventId? = none)
    (h2t : req2.type? ≠ some "url_verification")
    (h2r : pyTruthy req2.retry? = false) (h2e : req2.eventId? = none)
    (hstore : none ∉ store) :
    none ∈ (slackHandler req1 be1 se1 f1 store).2.1 ∧
    Event.create ∈ (slackHandler req1 be1 se1 f1 store).2.2 ∧
    slackHandler req2 be2 se2 f2 ((slackHandler req1 be1 se1 f1 store).2.1) =
      (some .okAlready, (slackHandler req1 be1 se1 f1 store).2.1, []) := by
  have hmem1 : req1.eventId? ∉ store := by rw [h1e]; exact hstore
  have hfresh := handler_fresh_store_and_create req1 be1 se1 f1 store h1t h1r hmem1
  have hin : none ∈ (slackHandler req1 be1 se1 f1 store).2.1 := by
    rw [hfresh.1, ← h1e]
    exact mem_insertEvent_self _ _
  refine ⟨hin, hfresh.2, handler_dedup_hit req2 be2 se2 f2 _ h2t h2r ?_⟩
  rw [h2e]
  exact hin

/-- Witness for C10: two successive deliveries without `event_id` against a
fresh store. -/
theorem c10_witness :
    none ∈ (slackHandler sampleReqNoId happyBackend happySlack 1 []).2.1 ∧
    Event.create ∈ (slackHandler sampleReqNoId happyBackend happySlack 1 []).2.2 ∧
    slackHandler sampleReqNoId happyBackend happySlack 1
        ((slackHandler sampleReqNoId happyBackend happySlack 1 []).2.1) =
      (some .okAlready,
        (slackHandler sampleReqNoId happyBackend happySlack 1 []).2.1, []) :=
  c10_missing_event_id_dedups_on_none sampleReqNoId sampleReqNoId happyBackend
    happyBackend happySlack happySlack 1 1 [] (by decide) (by decide) (by decide)
    (by decide) (by decide) (by decide) (by decide)
